import Mathlib

/-!
Shallow embedding of the AuctionService lot store (`src/database.cpp`) and of
the HTTP / access-gate layer (the unnamed main translation unit).

Modelling conventions:
* C++ `double` bid amounts and `DECIMAL(12,2)` prices are modelled as exact
  rationals `ℚ`; all claims are about order comparisons, which agree.
* SQL `timestamptz` values are modelled as integers (seconds); the storage
  clock `CURRENT_TIMESTAMP` is a field `now` of the store state.
* Each `Database` method opens its own transaction; a method is modelled as a
  pure function from the store state to a result paired with the next state.
-/

/-- One row of the `lots` table (`ensure_schema`, `row_to_json`). -/
structure Lot where
  id : Int
  name : String
  description : Option String
  start_price : ℚ
  current_price : Option ℚ
  owner_id : Option String
  created_at : Int
  auction_end_date : Int
deriving DecidableEq

/-- The persistent state: the `lots` table, the `SERIAL` id counter and the
storage clock (`CURRENT_TIMESTAMP`). -/
structure Store where
  lots : List Lot
  next_id : Int
  now : Int
deriving DecidableEq

/-- `SELECT * FROM lots WHERE id = $1` (first matching row, as in
`Database::get_lot_by_id`). -/
def get_lot_by_id (s : Store) (lot_id : Int) : Option Lot :=
  s.lots.find? (fun l => l.id == lot_id)

/-- `LotCreateParams` as used by `Database::create_lot` (the
`auction_end_date` argument is passed through `COALESCE`, so it is optional
at this level). -/
structure LotCreateParams where
  name : String
  description : Option String
  start_price : ℚ
  owner_id : Option String
  auction_end_date : Option Int
deriving DecidableEq

/-- `INTERVAL '7 days'` in seconds. -/
def seven_days : Int := 604800

/-- `Database::create_lot`: INSERT INTO lots (name, description, start_price,
current_price, owner_id, auction_end_date) VALUES ($1, $2, $3, $3, $4,
COALESCE($5, CURRENT_TIMESTAMP + INTERVAL '7 days')) RETURNING *.
Note that the insert passes `$3` (the start price) for `current_price`. -/
def create_lot (s : Store) (p : LotCreateParams) : Lot × Store :=
  let lot : Lot :=
    { id := s.next_id
      name := p.name
      description := p.description
      start_price := p.start_price
      current_price := some p.start_price
      owner_id := p.owner_id
      created_at := s.now
      auction_end_date := p.auction_end_date.getD (s.now + seven_days) }
  (lot, { s with lots := s.lots ++ [lot], next_id := s.next_id + 1 })

/-- `LotUpdateParams` with the presence flags and fields that
`Database::update_lot` reads (`database.cpp` uses all five field groups). -/
structure LotUpdateParams where
  name_present : Bool := false
  name : Option String := none
  description_present : Bool := false
  description : Option String := none
  owner_id_present : Bool := false
  owner_id : Option String := none
  auction_end_date_present : Bool := false
  auction_end_date : Option Int := none
  current_price_present : Bool := false
  current_price : Option ℚ := none
deriving DecidableEq

/-- The early-return test of `Database::update_lot`: any presence flag set. -/
def has_any_field (p : LotUpdateParams) : Bool :=
  p.name_present || p.description_present || p.owner_id_present ||
    p.auction_end_date_present || p.current_price_present

/-- A storage-level failure surfaced as an exception (`pqxx` throws and the
transaction aborts). -/
inductive DbError
  | constraint_violation
deriving DecidableEq

/-- `update_lot` emits `name = NULL` / `auction_end_date = NULL` for an
explicitly null field, but the schema declares both columns NOT NULL, so the
UPDATE fails on any matched row. -/
def null_violation (p : LotUpdateParams) : Bool :=
  (p.name_present && p.name.isNone) ||
    (p.auction_end_date_present && p.auction_end_date.isNone)

/-- The effect of the generated `SET` clauses on one matched row.  The
`getD` fallbacks for `name` / `auction_end_date` are never reached: the
NULL case is rejected by the schema first (`null_violation`). -/
def apply_update (l : Lot) (p : LotUpdateParams) : Lot :=
  { l with
    name := if p.name_present then p.name.getD l.name else l.name
    description := if p.description_present then p.description else l.description
    owner_id := if p.owner_id_present then p.owner_id else l.owner_id
    auction_end_date :=
      if p.auction_end_date_present then p.auction_end_date.getD l.auction_end_date
      else l.auction_end_date
    current_price :=
      if p.current_price_present then p.current_price else l.current_price }

/-- `Database::update_lot`: no flags → plain read; otherwise build the SET
list and run `UPDATE lots SET ... WHERE id = ... RETURNING *`.  No matched
row → `nullopt`; a NULL write into a NOT NULL column on a matched row →
the transaction aborts with an exception and no change survives. -/
def update_lot (s : Store) (lot_id : Int) (p : LotUpdateParams) :
    Except DbError (Option Lot) × Store :=
  if has_any_field p then
    match get_lot_by_id s lot_id with
    | none => (Except.ok none, s)
    | some l =>
      if null_violation p then
        (Except.error DbError.constraint_violation, s)
      else
        (Except.ok (some (apply_update l p)),
         { s with lots := s.lots.map (fun x => if x.id == lot_id then apply_update x p else x) })
  else
    (Except.ok (get_lot_by_id s lot_id), s)

/-- `Database::delete_lot`: DELETE FROM lots WHERE id = $1; returns whether
any row was removed. -/
def delete_lot (s : Store) (lot_id : Int) : Bool × Store :=
  (s.lots.any (fun l => l.id == lot_id),
   { s with lots := s.lots.filter (fun l => !(l.id == lot_id)) })

/-- The outcome of `Database::place_bid`, identified by the `error_reason`
strings of the source. -/
inductive BidResult
  | lot_not_found
  | bid_too_low
  | auction_ended
  | accepted (lot : Lot)
deriving DecidableEq

/-- `current_price` if present else `start_price` (line computing
`baseline_price`). -/
def baseline (l : Lot) : ℚ :=
  l.current_price.getD l.start_price

/-- `Database::place_bid`: SELECT ... FOR UPDATE; missing row → "Lot not
found"; `bid_amount <= baseline_price` → "Bid must be greater than current
price"; then `auction_end_date > CURRENT_TIMESTAMP` is evaluated and a closed
auction → "Auction has ended"; otherwise UPDATE current_price and return the
updated row. -/
def place_bid (s : Store) (lot_id : Int) (amount : ℚ) : BidResult × Store :=
  match get_lot_by_id s lot_id with
  | none => (BidResult.lot_not_found, s)
  | some l =>
    if amount ≤ baseline l then
      (BidResult.bid_too_low, s)
    else if l.auction_end_date ≤ s.now then
      (BidResult.auction_ended, s)
    else
      (BidResult.accepted { l with current_price := some amount },
       { s with
          lots := s.lots.map (fun x =>
            if x.id == lot_id then { x with current_price := some amount } else x) })

/-!
HTTP / access-gate layer (the unnamed main translation unit).
The upstream payment service is an external collaborator: a call to it is
modelled by its observable outcome — `none` when the request never yields a
response (unreachable or timed out, `httplib` returns a null result), or the
answered status plus an abstraction of the response body.
-/

/-- What `json::parse` + `body.value("allowed", false)` can see of the
upstream body: a body on which parsing (or reading a non-boolean `allowed`
field) throws, or a parsed JSON object whose `allowed` field is absent
(`none`) or a boolean. -/
inductive UpBody
  | malformed
  | parsed (allowed : Option Bool)
deriving DecidableEq

/-- An answered upstream HTTP response. -/
structure UpResponse where
  status : Nat
  body : UpBody
deriving DecidableEq

/-- `TokenValidationResult` of the source. -/
structure TokenValidationResult where
  allowed : Bool
  http_status : Nat
  message : String
deriving DecidableEq

/-- `check_token`: maps the upstream call outcome exactly as the source does.
The final catch-all (a thrown exception, e.g. an unparseable body) yields
502; its dynamic `ex.what()` suffix is abstracted away. -/
def check_token (payment_service_url method_name token : String)
    (resp : Option UpResponse) : TokenValidationResult :=
  if payment_service_url = "" then
    ⟨false, 500, "Payment service URL is not configured"⟩
  else
    match resp with
    | none => ⟨false, 502, "Payment service unavailable"⟩
    | some r =>
      if 500 ≤ r.status then ⟨false, 502, "Payment service error"⟩
      else if r.status = 401 then ⟨false, 401, "Invalid token"⟩
      else if 400 ≤ r.status then ⟨false, 403, "Token validation failed"⟩
      else
        match r.body with
        | UpBody.malformed => ⟨false, 502, "Payment service call failed"⟩
        | UpBody.parsed a =>
          if a.getD false then ⟨true, 200, "Allowed"⟩
          else ⟨false, 403, "Access denied"⟩

/-- `extract_bearer_token`: an absent `Authorization` header is the empty
string (`httplib::Request::get_header_value`); the scheme check is
`header.rfind("Bearer ", 0) == 0` (the first 7 characters are `Bearer `) and
the token is `header.substr(7)`.  Strings are handled through their
character lists, matching the byte-wise C++ operations. -/
def extract_bearer_token (header : String) : Except String String :=
  if header = "" then Except.error "Authorization header is required"
  else if header.data.take 7 ≠ "Bearer ".data then
    Except.error "Authorization header must use Bearer scheme"
  else
    let token := String.mk (header.data.drop 7)
    if token = "" then Except.error "Bearer token must not be empty"
    else Except.ok token

/-- Outcome of the `require_paid_access` lambda: either the request may
proceed with the extracted token, or it was answered with a status/message. -/
inductive GateResult
  | allow (token : String)
  | deny (status : Nat) (message : String)
deriving DecidableEq

/-- The `require_paid_access` lambda: bearer extraction, then token check;
any failure is sent as the response and stops the handler. -/
def require_paid_access (payment_service_url method_name header : String)
    (resp : Option UpResponse) : GateResult :=
  match extract_bearer_token header with
  | Except.error msg => GateResult.deny 401 msg
  | Except.ok token =>
    let v := check_token payment_service_url method_name token resp
    if v.allowed then GateResult.allow token else GateResult.deny v.http_status v.message

/-- A response body: a serialized lot, a lot list, an error object
(`make_error`), or an empty body (204). -/
inductive RespBody
  | jsonLot (l : Lot)
  | jsonLots (ls : List Lot)
  | jsonError (message : String)
  | empty
deriving DecidableEq

/-- An HTTP response as produced by `send_json` / the delete handler. -/
structure HResponse where
  status : Nat
  body : RespBody
deriving DecidableEq

/-- Store operations a handler may attempt, recorded as an effect log. -/
inductive StoreOp
  | opGetAll
  | opGetById
  | opCreate
  | opUpdate
  | opDelete
  | opBid
deriving DecidableEq

/-- `INT_MAX` of the target's 32-bit `int` (`std::stoi`). -/
def int_max : Nat := 2147483647

/-- Numeric value of a digit string. -/
def str_digits_val (s : String) : Nat :=
  s.data.foldl (fun n c => n * 10 + (c.toNat - 48)) 0

/-- `parse_path_id` applied to the regex capture of a `(\d+)` route: the
capture is a non-empty digit string, on which `std::stoi` returns its value,
or throws `out_of_range` (mapped to `nullopt`) beyond `INT_MAX`.  Inputs that
are not non-empty digit strings never reach it on these routes; they are
mapped to `nullopt` like any other `stoi` failure. -/
def parse_path_id (s : String) : Option Int :=
  if s = "" then none
  else if !(s.data.all Char.isDigit) then none
  else if str_digits_val s ≤ int_max then some (Int.ofNat (str_digits_val s))
  else none

/-- The GET `/lots/{id}` handler: id parse, then lookup. -/
def getLotHandler (s : Store) (idStr : String) : HResponse × List StoreOp :=
  match parse_path_id idStr with
  | none => (⟨400, RespBody.jsonError "Invalid lot id"⟩, [])
  | some lot_id =>
    match get_lot_by_id s lot_id with
    | none => (⟨404, RespBody.jsonError "Lot not found"⟩, [StoreOp.opGetById])
    | some l => (⟨200, RespBody.jsonLot l⟩, [StoreOp.opGetById])

/-- The parsed PUT `/lots/{id}` request body as the handler reads it: for
each of `name` / `description` / `owner_id`, the key may be absent, or
present with `null` or a string value. -/
structure UpdatePayload where
  name : Option (Option String) := none
  description : Option (Option String) := none
  owner_id : Option (Option String) := none
deriving DecidableEq

/-- How the PUT handler fills `LotUpdateParams{}`: only the three metadata
fields are ever marked present; the other flags keep their `false`
zero-initialisation. -/
def build_update_params (p : UpdatePayload) : LotUpdateParams :=
  { name_present := p.name.isSome
    name := p.name.getD none
    description_present := p.description.isSome
    description := p.description.getD none
    owner_id_present := p.owner_id.isSome
    owner_id := p.owner_id.getD none }

/-- The PUT `/lots/{id}` handler: gate, id parse, partial update.  The 500
branch carries the caught exception's dynamic message, abstracted to a fixed
string. -/
def putLotHandler (payment_service_url header : String) (resp : Option UpResponse)
    (s : Store) (idStr : String) (payload : UpdatePayload) :
    HResponse × Store × List StoreOp :=
  match require_paid_access payment_service_url "UpdateLot" header resp with
  | GateResult.deny st msg => (⟨st, RespBody.jsonError msg⟩, s, [])
  | GateResult.allow _ =>
    match parse_path_id idStr with
    | none => (⟨400, RespBody.jsonError "Invalid lot id"⟩, s, [])
    | some lot_id =>
      match update_lot s lot_id (build_update_params payload) with
      | (Except.error _, s2) => (⟨500, RespBody.jsonError "storage error"⟩, s2, [StoreOp.opUpdate])
      | (Except.ok none, s2) => (⟨404, RespBody.jsonError "Lot not found"⟩, s2, [StoreOp.opUpdate])
      | (Except.ok (some l), s2) => (⟨200, RespBody.jsonLot l⟩, s2, [StoreOp.opUpdate])

/-- The DELETE `/lots/{id}` handler. -/
def deleteLotHandler (payment_service_url header : String) (resp : Option UpResponse)
    (s : Store) (idStr : String) : HResponse × Store × List StoreOp :=
  match require_paid_access payment_service_url "DeleteLot" header resp with
  | GateResult.deny st msg => (⟨st, RespBody.jsonError msg⟩, s, [])
  | GateResult.allow _ =>
    match parse_path_id idStr with
    | none => (⟨400, RespBody.jsonError "Invalid lot id"⟩, s, [])
    | some lot_id =>
      match delete_lot s lot_id with
      | (false, s2) => (⟨404, RespBody.jsonError "Lot not found"⟩, s2, [StoreOp.opDelete])
      | (true, s2) => (⟨204, RespBody.empty⟩, s2, [StoreOp.opDelete])

/-- The POST `/lots/{id}/bid` handler; `bid` is the parsed `bid_amount`
field, `none` when absent from the payload. -/
def bidHandler (payment_service_url header : String) (resp : Option UpResponse)
    (s : Store) (idStr : String) (bid : Option ℚ) :
    HResponse × Store × List StoreOp :=
  match require_paid_access payment_service_url "PlaceBid" header resp with
  | GateResult.deny st msg => (⟨st, RespBody.jsonError msg⟩, s, [])
  | GateResult.allow _ =>
    match parse_path_id idStr with
    | none => (⟨400, RespBody.jsonError "Invalid lot id"⟩, s, [])
    | some lot_id =>
      match bid with
      | none => (⟨400, RespBody.jsonError "Missing field: bid_amount"⟩, s, [])
      | some amount =>
        match place_bid s lot_id amount with
        | (BidResult.lot_not_found, s2) =>
          (⟨404, RespBody.jsonError "Lot not found"⟩, s2, [StoreOp.opBid])
        | (BidResult.bid_too_low, s2) =>
          (⟨400, RespBody.jsonError "Bid must be greater than current price"⟩, s2, [StoreOp.opBid])
        | (BidResult.auction_ended, s2) =>
          (⟨409, RespBody.jsonError "Auction has ended"⟩, s2, [StoreOp.opBid])
        | (BidResult.accepted l, s2) =>
          (⟨200, RespBody.jsonLot l⟩, s2, [StoreOp.opBid])

/-!
Concrete fixtures (the spec's "Vase" scenario) used by witnesses and
counterexample-style evaluations.
-/

/-- Empty store, fresh id counter, clock at 0. -/
def store0 : Store := { lots := [], next_id := 1, now := 0 }

/-- The spec scenario's create input: name "Vase", start price 100, an
explicit end date one hour ahead. -/
def vase_params : LotCreateParams :=
  { name := "Vase", description := none, start_price := 100,
    owner_id := none, auction_end_date := some 3600 }

/-- A lot as the spec expects it right after creation: no bid yet. -/
def lot1 : Lot :=
  { id := 1, name := "Vase", description := none, start_price := 100,
    current_price := none, owner_id := none, created_at := 0,
    auction_end_date := 1000 }

/-- Store holding `lot1` with the clock still before the end date. -/
def store1 : Store := { lots := [lot1], next_id := 2, now := 0 }

/-- Store holding `lot1` with the clock exactly at the end date. -/
def store_ended : Store := { lots := [lot1], next_id := 2, now := 1000 }

/-- The spec's "clear description" update request: description explicitly
null, nothing else supplied. -/
def upd_desc_null : LotUpdateParams := { description_present := true, description := none }

/-- The HTTP status a gate outcome produces (an allowed request proceeds;
`check_token` reports 200 for it). -/
def gate_status : GateResult → Nat
  | GateResult.allow _ => 200
  | GateResult.deny st _ => st

/-- Whether bearer extraction succeeds on the header. -/
def bearer_ok (header : String) : Bool :=
  match extract_bearer_token header with
  | Except.ok _ => true
  | Except.error _ => false

/-- An upstream response that allows the request. -/
def gate_ok_resp : Option UpResponse := some ⟨200, UpBody.parsed (some true)⟩

/-!
Serialized bid batches: the exclusive row lock (`SELECT ... FOR UPDATE`)
serializes concurrent `place_bid` calls on one lot, so a batch of concurrent
bids is observed as some sequential order of calls, each seeing the store
left by the previous one.  `run_bids` executes one such serialization order.
-/

/-- Whether a bid outcome is an acceptance. -/
def is_accepted : BidResult → Bool
  | BidResult.accepted _ => true
  | _ => false

/-- Execute a batch of bids against one lot in the given serialization
order. -/
def run_bids (s : Store) (lot_id : Int) : List ℚ → List BidResult × Store
  | [] => ([], s)
  | a :: rest =>
    let p := place_bid s lot_id a
    let q := run_bids p.2 lot_id rest
    (p.1 :: q.1, q.2)

/-- Reference acceptance pattern: accept exactly the bids strictly above the
running baseline. -/
def sim (b : ℚ) : List ℚ → List Bool
  | [] => []
  | a :: rest => if b < a then true :: sim a rest else false :: sim b rest

/-!
Helper lemmas about row lookup and the per-row UPDATE map.
-/

lemma find_map_guard (xs : List Lot) (i : Int) (g : Lot → Lot)
    (hg : ∀ x, (g x).id = x.id) (l : Lot)
    (h : xs.find? (fun x => x.id == i) = some l) :
    (xs.map (fun x => if x.id == i then g x else x)).find? (fun x => x.id == i) =
      some (g l) := by
  induction xs with
  | nil => simp at h
  | cons y t ih =>
    rw [List.find?_cons] at h
    cases hy : (y.id == i) with
    | true =>
      simp only [hy] at h
      injection h with h
      subst h
      have hgy : ((g y).id == i) = true := by rw [hg]; exact hy
      simp only [List.map_cons, List.find?_cons, if_pos hy, hgy]
    | false =>
      simp only [hy] at h
      have hy2 : ¬ ((y.id == i) = true) := by simp [hy]
      simp only [List.map_cons, if_neg hy2]
      simp only [List.find?_cons, hy]
      exact ih h

lemma place_bid_of_not_found {s : Store} {lot_id : Int} {amount : ℚ}
    (h : get_lot_by_id s lot_id = none) :
    place_bid s lot_id amount = (BidResult.lot_not_found, s) := by
  unfold place_bid
  rw [h]

lemma place_bid_of_low {s : Store} {lot_id : Int} {amount : ℚ} {l : Lot}
    (hl : get_lot_by_id s lot_id = some l) (h : amount ≤ baseline l) :
    place_bid s lot_id amount = (BidResult.bid_too_low, s) := by
  unfold place_bid
  rw [hl]
  dsimp only
  rw [if_pos h]

lemma place_bid_of_ended {s : Store} {lot_id : Int} {amount : ℚ} {l : Lot}
    (hl : get_lot_by_id s lot_id = some l) (h : baseline l < amount)
    (hend : l.auction_end_date ≤ s.now) :
    place_bid s lot_id amount = (BidResult.auction_ended, s) := by
  unfold place_bid
  rw [hl]
  dsimp only
  rw [if_neg (not_le.mpr h), if_pos hend]

lemma place_bid_of_accept {s : Store} {lot_id : Int} {amount : ℚ} {l : Lot}
    (hl : get_lot_by_id s lot_id = some l) (h : baseline l < amount)
    (hlive : s.now < l.auction_end_date) :
    place_bid s lot_id amount =
      (BidResult.accepted { l with current_price := some amount },
       { s with lots := s.lots.map (fun x =>
          if x.id == lot_id then { x with current_price := some amount } else x) }) := by
  unfold place_bid
  rw [hl]
  dsimp only
  rw [if_neg (not_le.mpr h), if_neg (not_le.mpr hlive)]

lemma get_after_accept {s : Store} {lot_id : Int} {amount : ℚ} {l : Lot}
    (hl : get_lot_by_id s lot_id = some l) (h : baseline l < amount)
    (hlive : s.now < l.auction_end_date) :
    get_lot_by_id (place_bid s lot_id amount).2 lot_id =
      some { l with current_price := some amount } := by
  rw [place_bid_of_accept hl h hlive]
  exact find_map_guard s.lots lot_id (fun x => { x with current_price := some amount })
    (fun _ => rfl) l hl

/-- C1: `place_bid` rejects with `LotNotFound` exactly when no lot with the
given id exists; otherwise, with `baseline = current_price if present else
start_price`, it rejects with `BidTooLow` exactly when `amount <= baseline`
(ties rejected), and this test precedes the liveness test — the equivalence
holds for every store state, including one whose clock is past the lot's end
date. -/
theorem place_bid_rejection_rules (s : Store) (lot_id : Int) (amount : ℚ) :
    ((place_bid s lot_id amount).1 = BidResult.lot_not_found ↔
      get_lot_by_id s lot_id = none) ∧
    (∀ l, get_lot_by_id s lot_id = some l →
      ((place_bid s lot_id amount).1 = BidResult.bid_too_low ↔ amount ≤ baseline l)) := by
  constructor
  · cases hg : get_lot_by_id s lot_id with
    | none =>
      rw [place_bid_of_not_found hg]
      simp [hg]
    | some l =>
      constructor
      · intro hres
        by_cases hlow : amount ≤ baseline l
        · rw [place_bid_of_low hg hlow] at hres; simp at hres
        · by_cases hend : l.auction_end_date ≤ s.now
          · rw [place_bid_of_ended hg (not_le.mp hlow) hend] at hres; simp at hres
          · rw [place_bid_of_accept hg (not_le.mp hlow) (not_le.mp hend)] at hres
            simp at hres
      · intro hres; simp at hres
  · intro l hl
    constructor
    · intro hres
      by_cases hlow : amount ≤ baseline l
      · exact hlow
      · by_cases hend : l.auction_end_date ≤ s.now
        · rw [place_bid_of_ended hl (not_le.mp hlow) hend] at hres; simp at hres
        · rw [place_bid_of_accept hl (not_le.mp hlow) (not_le.mp hend)] at hres
          simp at hres
    · intro hlow
      rw [place_bid_of_low hl hlow]

/-- C1 witness: in a store whose clock is already at the end date, a bid
equal to the baseline is still rejected as too low (not as ended). -/
theorem place_bid_rejection_rules_witness :
    (place_bid store_ended 1 100).1 = BidResult.bid_too_low :=
  ((place_bid_rejection_rules store_ended 1 100).2 lot1 (by decide)).mpr (by decide)

/-- C2: for an existing lot and an amount strictly above the baseline,
`place_bid` rejects with `AuctionEnded` exactly when the store clock has
reached `auction_end_date` (liveness is the strict `now < auction_end_date`
on the storage clock); when live, it returns the lot updated with
`current_price = amount`, and the stored row is updated accordingly. -/
theorem place_bid_liveness_and_write (s : Store) (lot_id : Int) (amount : ℚ)
    (l : Lot) (hl : get_lot_by_id s lot_id = some l) (hamt : baseline l < amount) :
    (((place_bid s lot_id amount).1 = BidResult.auction_ended) ↔
      l.auction_end_date ≤ s.now) ∧
    (s.now < l.auction_end_date →
      (place_bid s lot_id amount).1 =
        BidResult.accepted { l with current_price := some amount } ∧
      get_lot_by_id (place_bid s lot_id amount).2 lot_id =
        some { l with current_price := some amount }) := by
  constructor
  · constructor
    · intro hres
      by_cases hend : l.auction_end_date ≤ s.now
      · exact hend
      · rw [place_bid_of_accept hl hamt (not_le.mp hend)] at hres
        cases hres
    · intro hend
      rw [place_bid_of_ended hl hamt hend]
  · intro hlive
    constructor
    · rw [place_bid_of_accept hl hamt hlive]
    · exact get_after_accept hl hamt hlive

/-- C2 witness: a valid 150 bid on the live "Vase" lot is accepted and
recorded. -/
theorem place_bid_liveness_and_write_witness :
    (place_bid store1 1 150).1 =
      BidResult.accepted { lot1 with current_price := some 150 } :=
  ((place_bid_liveness_and_write store1 1 150 lot1 (by decide) (by decide)).2
    (by decide)).1

/-- C3: the claim says a freshly created lot has `current_price = null`; the
code instead passes the start price for `current_price` in the INSERT, so the
spec scenario's "Vase" create yields a returned lot and a stored row with
`current_price = 100`, not null. -/
theorem create_lot_sets_current_price_to_start :
    (create_lot store0 vase_params).1.current_price = some 100 ∧
    (create_lot store0 vase_params).1.current_price ≠ none ∧
    get_lot_by_id (create_lot store0 vase_params).2 1 =
      some (create_lot store0 vase_params).1 := by
  refine ⟨by decide, by decide, by decide⟩

/-- C4: the claimed invariant "whenever `current_price` is present it is
strictly greater than `start_price`" is already violated by `create_lot`:
the created row has `current_price = some start_price`, and the strict
inequality fails there. -/
theorem create_lot_violates_price_invariant :
    (create_lot store0 vase_params).1.current_price =
      some ((create_lot store0 vase_params).1.start_price) ∧
    ¬ ((create_lot store0 vase_params).1.start_price <
        (create_lot store0 vase_params).1.start_price) := by
  refine ⟨by decide, by decide⟩

/-- C7: whenever `place_bid` returns a rejection (no accepted lot), the
store state after the call is exactly the state before it: the rejecting
transaction performs no mutation. -/
theorem place_bid_rejection_preserves_state (s : Store) (lot_id : Int) (amount : ℚ)
    (h : ∀ l, (place_bid s lot_id amount).1 ≠ BidResult.accepted l) :
    (place_bid s lot_id amount).2 = s := by
  cases hg : get_lot_by_id s lot_id with
  | none => rw [place_bid_of_not_found hg]
  | some l =>
    by_cases hlow : amount ≤ baseline l
    · rw [place_bid_of_low hg hlow]
    · by_cases hend : l.auction_end_date ≤ s.now
      · rw [place_bid_of_ended hg (not_le.mp hlow) hend]
      · exfalso
        exact h { l with current_price := some amount }
          (by rw [place_bid_of_accept hg (not_le.mp hlow) (not_le.mp hend)])

/-- C7 witness: the rejected equal-baseline bid on the "Vase" lot leaves the
store untouched. -/
theorem place_bid_rejection_preserves_state_witness :
    (place_bid store1 1 100).2 = store1 :=
  place_bid_rejection_preserves_state store1 1 100 (by
    intro l hl
    rw [show (place_bid store1 1 100).1 = BidResult.bid_too_low from by decide] at hl
    cases hl)

/-!
Update path: frame lemmas.
-/

lemma apply_update_id (l : Lot) (p : LotUpdateParams) : (apply_update l p).id = l.id := rfl

lemma apply_update_start_price (l : Lot) (p : LotUpdateParams) :
    (apply_update l p).start_price = l.start_price := rfl

lemma apply_update_current_price_frame (l : Lot) (p : LotUpdateParams)
    (hcp : p.current_price_present = false) :
    (apply_update l p).current_price = l.current_price := by
  unfold apply_update
  simp [hcp]

/-- The store after any `update_lot` call agrees with the store before it on
every row's `(id, start_price, current_price)` triple, as long as the params
do not mark `current_price` present. -/
lemma update_lot_store_prices (s : Store) (lot_id : Int) (p : LotUpdateParams)
    (hcp : p.current_price_present = false) :
    ((update_lot s lot_id p).2).lots.map (fun l => (l.id, l.start_price, l.current_price)) =
      s.lots.map (fun l => (l.id, l.start_price, l.current_price)) := by
  unfold update_lot
  by_cases hf : has_any_field p = true
  · rw [if_pos hf]
    cases hg : get_lot_by_id s lot_id with
    | none => rfl
    | some l =>
      dsimp only
      by_cases hnv : null_violation p = true
      · rw [if_pos hnv]
      · rw [if_neg hnv]
        dsimp only
        rw [List.map_map]
        apply List.map_congr_left
        intro x _
        by_cases hx : (x.id == lot_id) = true
        · simp only [Function.comp_apply, if_pos hx, apply_update_id,
            apply_update_start_price, apply_update_current_price_frame x p hcp]
        · simp only [Function.comp_apply, if_neg hx]
  · rw [if_neg hf]

/-- C5: through the PUT `/lots/{id}` route, no request can alter any lot's
`current_price` or `start_price`: whatever the payload, gate outcome and id
string, every row's `(id, start_price, current_price)` triple after the
request equals its value before. -/
theorem put_route_never_touches_prices (payment_service_url header : String)
    (resp : Option UpResponse) (s : Store) (idStr : String) (payload : UpdatePayload) :
    ((putLotHandler payment_service_url header resp s idStr payload).2.1).lots.map
        (fun l => (l.id, l.start_price, l.current_price)) =
      s.lots.map (fun l => (l.id, l.start_price, l.current_price)) := by
  unfold putLotHandler
  cases require_paid_access payment_service_url "UpdateLot" header resp with
  | deny st msg => rfl
  | allow tok =>
    dsimp only
    cases parse_path_id idStr with
    | none => rfl
    | some lot_id =>
      dsimp only
      have hframe := update_lot_store_prices s lot_id (build_update_params payload) rfl
      rcases hu : update_lot s lot_id (build_update_params payload) with ⟨r, s2⟩
      rw [hu] at hframe
      cases r with
      | error e => exact hframe
      | ok o => cases o with
        | none => exact hframe
        | some l2 => exact hframe

/-- C6: `update_lot` on an existing lot changes exactly the explicitly
supplied fields (an explicit null clears the nullable `description` /
`owner_id` / `current_price`; `name` and `auction_end_date` are NOT NULL, so
the claim is read on requests that supply them non-null), leaves every
unsupplied field unchanged, acts as a no-op read returning the current lot
when no field is supplied, and reports not-found (with no state change) for
a nonexistent id. -/
theorem update_lot_partial_update_spec :
    (∀ (s : Store) (lot_id : Int) (p : LotUpdateParams) (l : Lot),
      get_lot_by_id s lot_id = some l →
      (p.name_present = true → p.name.isSome = true) →
      (p.auction_end_date_present = true → p.auction_end_date.isSome = true) →
      has_any_field p = true →
      ∃ l2, (update_lot s lot_id p).1 = Except.ok (some l2) ∧
        get_lot_by_id (update_lot s lot_id p).2 lot_id = some l2 ∧
        l2.id = l.id ∧
        l2.start_price = l.start_price ∧
        l2.created_at = l.created_at ∧
        (p.name_present = true → ∀ v, p.name = some v → l2.name = v) ∧
        (p.name_present = false → l2.name = l.name) ∧
        (p.description_present = true → l2.description = p.description) ∧
        (p.description_present = false → l2.description = l.description) ∧
        (p.owner_id_present = true → l2.owner_id = p.owner_id) ∧
        (p.owner_id_present = false → l2.owner_id = l.owner_id) ∧
        (p.auction_end_date_present = true →
          ∀ v, p.auction_end_date = some v → l2.auction_end_date = v) ∧
        (p.auction_end_date_present = false → l2.auction_end_date = l.auction_end_date) ∧
        (p.current_price_present = true → l2.current_price = p.current_price) ∧
        (p.current_price_present = false → l2.current_price = l.current_price)) ∧
    (∀ (s : Store) (lot_id : Int) (p : LotUpdateParams),
      has_any_field p = false →
      update_lot s lot_id p = (Except.ok (get_lot_by_id s lot_id), s)) ∧
    (∀ (s : Store) (lot_id : Int) (p : LotUpdateParams),
      get_lot_by_id s lot_id = none →
      (update_lot s lot_id p).1 = Except.ok none ∧ (update_lot s lot_id p).2 = s) := by
  refine ⟨?main, ?noop, ?missing⟩
  case main =>
    intro s lot_id p l hl hname haed hf
    have hnv : null_violation p = false := by
      unfold null_violation
      cases hnp : p.name_present with
      | true =>
        have h1 := hname hnp
        cases hap : p.auction_end_date_present with
        | true =>
          have h2 := haed hap
          simp [Option.isNone, *]
          cases hn : p.name with
          | none => rw [hn] at h1; simp at h1
          | some v =>
            cases ha : p.auction_end_date with
            | none => rw [ha] at h2; simp at h2
            | some w => simp [hn, ha]
        | false =>
          simp
          cases hn : p.name with
          | none => rw [hn] at h1; simp at h1
          | some v => simp [hn]
      | false =>
        cases hap : p.auction_end_date_present with
        | true =>
          have h2 := haed hap
          simp
          cases ha : p.auction_end_date with
          | none => rw [ha] at h2; simp at h2
          | some w => simp [ha]
        | false => simp
    refine ⟨apply_update l p, ?_, ?_, rfl, rfl, rfl, ?_, ?_, ?_, ?_, ?_, ?_, ?_, ?_, ?_, ?_⟩
    · unfold update_lot
      rw [if_pos hf, hl]
      dsimp only
      rw [if_neg (by simp [hnv])]
    · unfold update_lot
      rw [if_pos hf, hl]
      dsimp only
      rw [if_neg (by simp [hnv])]
      exact find_map_guard s.lots lot_id (fun x => apply_update x p)
        (fun x => apply_update_id x p) l hl
    · intro ht v hv; simp [apply_update, ht, hv]
    · intro hfn; simp [apply_update, hfn]
    · intro ht; simp [apply_update, ht]
    · intro hfn; simp [apply_update, hfn]
    · intro ht; simp [apply_update, ht]
    · intro hfn; simp [apply_update, hfn]
    · intro ht v hv; simp [apply_update, ht, hv]
    · intro hfn; simp [apply_update, hfn]
    · intro ht; simp [apply_update, ht]
    · intro hfn; simp [apply_update, hfn]
  case noop =>
    intro s lot_id p hf
    unfold update_lot
    rw [if_neg (by simp [hf])]
  case missing =>
    intro s lot_id p hg
    unfold update_lot
    by_cases hf : has_any_field p = true
    · rw [if_pos hf, hg]
      exact ⟨rfl, rfl⟩
    · rw [if_neg hf, hg]
      exact ⟨rfl, rfl⟩

/-- C6 witness: clearing the description of the "Vase" lot leaves its name
untouched and returns the lot with `description = null`. -/
theorem update_lot_partial_update_spec_witness :
    ∃ l2, (update_lot store1 1 upd_desc_null).1 = Except.ok (some l2) ∧
      l2.description = none ∧ l2.name = "Vase" ∧ l2.current_price = none := by
  obtain ⟨l2, c1, c2, c3, c4, c5, c6, c7, c8, c9, c10, c11, c12, c13, c14, c15⟩ :=
    update_lot_partial_update_spec.1 store1 1 upd_desc_null lot1
      (by decide) (by decide) (by decide) (by decide)
  refine ⟨l2, c1, ?_, ?_, ?_⟩
  · rw [c8 rfl]; rfl
  · rw [c7 rfl]; rfl
  · rw [c15 rfl]; rfl

/-!
Access gate: outcome characterization.
-/

/-- C8 counterexample: a well-formed bearer token with a reachable upstream
answering 200 and a body that `json::parse` / `value("allowed", false)`
rejects is answered 502 (UpstreamUnavailable), although the upstream did not
answer 5xx, was not unreachable, and did not time out — so the claim's
enumeration (502 exactly for 5xx/unreachable/timeout) fails at this input. -/
theorem gate_mapping_counterexample :
    gate_status (require_paid_access "http://payment" "PlaceBid" "Bearer tok"
      (some ⟨200, UpBody.malformed⟩)) = 502 ∧
    (some (⟨200, UpBody.malformed⟩ : UpResponse) ≠ (none : Option UpResponse)) ∧
    ¬ (500 ≤ (200 : Nat)) ∧ ¬ (400 ≤ (200 : Nat)) := by
  refine ⟨by decide, by decide, by decide, by decide⟩

/-- C8 (amended): for a configured payment-service URL, the gate's outcome
is exactly: 401 when the bearer credential is missing/malformed/empty or the
upstream answers 401; 403 when the upstream answers another 4xx, or answers
below 400 with a parsed body whose `allowed` field reads false (explicitly
false, or absent and defaulted to false); 502 when the upstream is
unreachable or times out, answers 5xx, or answers below 400 with a body on
which JSON parsing or the boolean read of `allowed` fails; allowed exactly
when the upstream answers below 400 with a parsed body whose `allowed` field
is `true`. -/
theorem gate_outcome_characterization (url method header : String)
    (resp : Option UpResponse) (hurl : url ≠ "") :
    (gate_status (require_paid_access url method header resp) = 401 ↔
      bearer_ok header = false ∨
      (bearer_ok header = true ∧ ∃ r, resp = some r ∧ r.status = 401)) ∧
    (gate_status (require_paid_access url method header resp) = 403 ↔
      bearer_ok header = true ∧ ∃ r, resp = some r ∧
        ((400 ≤ r.status ∧ r.status < 500 ∧ r.status ≠ 401) ∨
         (r.status < 400 ∧ ∃ a, r.body = UpBody.parsed a ∧ a ≠ some true))) ∧
    (gate_status (require_paid_access url method header resp) = 502 ↔
      bearer_ok header = true ∧
        (resp = none ∨ ∃ r, resp = some r ∧
          (500 ≤ r.status ∨ (r.status < 400 ∧ r.body = UpBody.malformed)))) ∧
    ((∃ t, require_paid_access url method header resp = GateResult.allow t) ↔
      bearer_ok header = true ∧ ∃ r, resp = some r ∧ r.status < 400 ∧
        r.body = UpBody.parsed (some true)) := by
  cases hb : extract_bearer_token header with
  | error msg =>
    have hbo : bearer_ok header = false := by unfold bearer_ok; rw [hb]
    have hres : require_paid_access url method header resp = GateResult.deny 401 msg := by
      unfold require_paid_access
      rw [hb]
    rw [hres]
    refine ⟨?_, ?_, ?_, ?_⟩
    · exact ⟨fun _ => Or.inl hbo, fun _ => rfl⟩
    · constructor
      · intro h; simp [gate_status] at h
      · rintro ⟨hbt, -⟩; rw [hbo] at hbt; exact Bool.noConfusion hbt
    · constructor
      · intro h; simp [gate_status] at h
      · rintro ⟨hbt, -⟩; rw [hbo] at hbt; exact Bool.noConfusion hbt
    · constructor
      · rintro ⟨t, ht⟩; exact GateResult.noConfusion ht
      · rintro ⟨hbt, -⟩; rw [hbo] at hbt; exact Bool.noConfusion hbt
  | ok tok =>
    have hbo : bearer_ok header = true := by unfold bearer_ok; rw [hb]
    cases resp with
    | none =>
      have hres : require_paid_access url method header none =
          GateResult.deny 502 "Payment service unavailable" := by
        unfold require_paid_access check_token
        rw [hb]
        dsimp only
        rw [if_neg hurl]
        rfl
      rw [hres]
      refine ⟨?_, ?_, ?_, ?_⟩
      · constructor
        · intro h; simp [gate_status] at h
        · rintro (hf | ⟨-, r, hr, -⟩)
          · rw [hbo] at hf; exact Bool.noConfusion hf
          · exact Option.noConfusion hr
      · constructor
        · intro h; simp [gate_status] at h
        · rintro ⟨-, r, hr, -⟩; exact Option.noConfusion hr
      · exact ⟨fun _ => ⟨hbo, Or.inl rfl⟩, fun _ => rfl⟩
      · constructor
        · rintro ⟨t, ht⟩; exact GateResult.noConfusion ht
        · rintro ⟨-, r, hr, -⟩; exact Option.noConfusion hr
    | some r =>
      by_cases h5 : 500 ≤ r.status
      · have hres : require_paid_access url method header (some r) =
            GateResult.deny 502 "Payment service error" := by
          unfold require_paid_access check_token
          rw [hb]
          dsimp only
          rw [if_neg hurl, if_pos h5]
          rfl
        rw [hres]
        refine ⟨?_, ?_, ?_, ?_⟩
        · constructor
          · intro h; simp [gate_status] at h
          · rintro (hf | ⟨-, r2, hr, h401x⟩)
            · rw [hbo] at hf; exact Bool.noConfusion hf
            · injection hr with e; subst e; exfalso; omega
        · constructor
          · intro h; simp [gate_status] at h
          · rintro ⟨-, r2, hr, hP⟩
            injection hr with e; subst e
            exfalso
            rcases hP with ⟨-, ha2, -⟩ | ⟨hlt, -⟩ <;> omega
        · exact ⟨fun _ => ⟨hbo, Or.inr ⟨r, rfl, Or.inl h5⟩⟩, fun _ => rfl⟩
        · constructor
          · rintro ⟨t, ht⟩; exact GateResult.noConfusion ht
          · rintro ⟨-, r2, hr, hlt, -⟩
            injection hr with e; subst e
            exfalso; omega
      · by_cases h401 : r.status = 401
        · have hres : require_paid_access url method header (some r) =
              GateResult.deny 401 "Invalid token" := by
            unfold require_paid_access check_token
            rw [hb]
            dsimp only
            rw [if_neg hurl, if_neg h5, if_pos h401]
            rfl
          rw [hres]
          refine ⟨?_, ?_, ?_, ?_⟩
          · exact ⟨fun _ => Or.inr ⟨hbo, r, rfl, h401⟩, fun _ => rfl⟩
          · constructor
            · intro h; simp [gate_status] at h
            · rintro ⟨-, r2, hr, hP⟩
              injection hr with e; subst e
              rcases hP with ⟨-, -, hne⟩ | ⟨hlt, -⟩
              · exact absurd h401 hne
              · exfalso; omega
          · constructor
            · intro h; simp [gate_status] at h
            · rintro ⟨-, hnone | ⟨r2, hr, hP⟩⟩
              · exact Option.noConfusion hnone
              · injection hr with e; subst e
                exfalso
                rcases hP with h5x | ⟨hlt, -⟩ <;> omega
          · constructor
            · rintro ⟨t, ht⟩; exact GateResult.noConfusion ht
            · rintro ⟨-, r2, hr, hlt, -⟩
              injection hr with e; subst e
              exfalso; omega
        · by_cases h4 : 400 ≤ r.status
          · have hres : require_paid_access url method header (some r) =
                GateResult.deny 403 "Token validation failed" := by
              unfold require_paid_access check_token
              rw [hb]
              dsimp only
              rw [if_neg hurl, if_neg h5, if_neg h401, if_pos h4]
              rfl
            rw [hres]
            refine ⟨?_, ?_, ?_, ?_⟩
            · constructor
              · intro h; simp [gate_status] at h
              · rintro (hf | ⟨-, r2, hr, h401x⟩)
                · rw [hbo] at hf; exact Bool.noConfusion hf
                · injection hr with e; subst e; exact absurd h401x h401
            · constructor
              · intro _
                exact ⟨hbo, r, rfl, Or.inl ⟨h4, by omega, h401⟩⟩
              · intro _; rfl
            · constructor
              · intro h; simp [gate_status] at h
              · rintro ⟨-, hnone | ⟨r2, hr, hP⟩⟩
                · exact Option.noConfusion hnone
                · injection hr with e; subst e
                  rcases hP with h5x | ⟨hlt, -⟩
                  · exact absurd h5x h5
                  · exfalso; omega
            · constructor
              · rintro ⟨t, ht⟩; exact GateResult.noConfusion ht
              · rintro ⟨-, r2, hr, hlt, -⟩
                injection hr with e; subst e
                exfalso; omega
          · cases hbody : r.body with
            | malformed =>
              have hres : require_paid_access url method header (some r) =
                  GateResult.deny 502 "Payment service call failed" := by
                unfold require_paid_access check_token
                rw [hb]
                dsimp only
                rw [if_neg hurl, if_neg h5, if_neg h401, if_neg h4, hbody]
                rfl
              rw [hres]
              refine ⟨?_, ?_, ?_, ?_⟩
              · constructor
                · intro h; simp [gate_status] at h
                · rintro (hf | ⟨-, r2, hr, h401x⟩)
                  · rw [hbo] at hf; exact Bool.noConfusion hf
                  · injection hr with e; subst e; exact absurd h401x h401
              · constructor
                · intro h; simp [gate_status] at h
                · rintro ⟨-, r2, hr, hP⟩
                  injection hr with e; subst e
                  rcases hP with ⟨h4x, -, -⟩ | ⟨-, a, ha, -⟩
                  · exact absurd h4x h4
                  · rw [hbody] at ha; exact UpBody.noConfusion ha
              · constructor
                · intro _
                  exact ⟨hbo, Or.inr ⟨r, rfl, Or.inr ⟨by omega, hbody⟩⟩⟩
                · intro _; rfl
              · constructor
                · rintro ⟨t, ht⟩; exact GateResult.noConfusion ht
                · rintro ⟨-, r2, hr, -, hbx⟩
                  injection hr with e; subst e
                  rw [hbody] at hbx; exact UpBody.noConfusion hbx
            | parsed a =>
              cases ha : a.getD false with
              | true =>
                have hat : a = some true := by
                  cases a with
                  | none => simp at ha
                  | some b => cases b with
                    | true => rfl
                    | false => simp at ha
                subst hat
                have hres : require_paid_access url method header (some r) =
                    GateResult.allow tok := by
                  unfold require_paid_access check_token
                  rw [hb]
                  dsimp only
                  rw [if_neg hurl, if_neg h5, if_neg h401, if_neg h4, hbody]
                  rfl
                rw [hres]
                refine ⟨?_, ?_, ?_, ?_⟩
                · constructor
                  · intro h; simp [gate_status] at h
                  · rintro (hf | ⟨-, r2, hr, h401x⟩)
                    · rw [hbo] at hf; exact Bool.noConfusion hf
                    · injection hr with e; subst e; exact absurd h401x h401
                · constructor
                  · intro h; simp [gate_status] at h
                  · rintro ⟨-, r2, hr, hP⟩
                    injection hr with e; subst e
                    rcases hP with ⟨h4x, -, -⟩ | ⟨-, a2, ha2, hne⟩
                    · exact absurd h4x h4
                    · rw [hbody] at ha2
                      injection ha2 with e2
                      exact absurd e2.symm hne
                · constructor
                  · intro h; simp [gate_status] at h
                  · rintro ⟨-, hnone | ⟨r2, hr, hP⟩⟩
                    · exact Option.noConfusion hnone
                    · injection hr with e; subst e
                      rcases hP with h5x | ⟨-, hbx⟩
                      · exact absurd h5x h5
                      · rw [hbody] at hbx; exact UpBody.noConfusion hbx
                · constructor
                  · intro _; exact ⟨hbo, r, rfl, by omega, hbody⟩
                  · intro _; exact ⟨tok, rfl⟩
              | false =>
                have hne : a ≠ some true := by
                  intro h; rw [h] at ha; simp at ha
                have hres : require_paid_access url method header (some r) =
                    GateResult.deny 403 "Access denied" := by
                  unfold require_paid_access check_token
                  rw [hb]
                  dsimp only
                  rw [if_neg hurl, if_neg h5, if_neg h401, if_neg h4, hbody]
                  dsimp only
                  rw [ha]
                  rfl
                rw [hres]
                refine ⟨?_, ?_, ?_, ?_⟩
                · constructor
                  · intro h; simp [gate_status] at h
                  · rintro (hf | ⟨-, r2, hr, h401x⟩)
                    · rw [hbo] at hf; exact Bool.noConfusion hf
                    · injection hr with e; subst e; exact absurd h401x h401
                · constructor
                  · intro _
                    exact ⟨hbo, r, rfl, Or.inr ⟨by omega, a, hbody, hne⟩⟩
                  · intro _; rfl
                · constructor
                  · intro h; simp [gate_status] at h
                  · rintro ⟨-, hnone | ⟨r2, hr, hP⟩⟩
                    · exact Option.noConfusion hnone
                    · injection hr with e; subst e
                      rcases hP with h5x | ⟨-, hbx⟩
                      · exact absurd h5x h5
                      · rw [hbody] at hbx; exact UpBody.noConfusion hbx
                · constructor
                  · rintro ⟨t, ht⟩; exact GateResult.noConfusion ht
                  · rintro ⟨-, r2, hr, -, hbx⟩
                    injection hr with e; subst e
                    rw [hbody] at hbx
                    injection hbx with e2
                    exact absurd e2 hne

/-- C8 witness: a missing Authorization header yields 401 regardless of the
upstream. -/
theorem gate_outcome_characterization_witness :
    gate_status (require_paid_access "http://payment" "PlaceBid" "" none) = 401 :=
  (gate_outcome_characterization "http://payment" "PlaceBid" "" none
    (by decide)).1.mpr (Or.inl (by decide))

/-!
Path-id parsing on the `(\d+)` routes.
-/

lemma parse_path_id_overflow {s : String} (h0 : s ≠ "")
    (hd : s.data.all Char.isDigit = true) (hbig : int_max < str_digits_val s) :
    parse_path_id s = none := by
  unfold parse_path_id
  rw [if_neg h0, if_neg (by simp [hd]), if_neg (by omega)]

/-- C10: on every route carrying an `{id}` segment, a captured digit string
whose value exceeds `INT_MAX` (so `std::stoi` throws and `parse_path_id`
yields none) is answered 400 "Invalid lot id", the store is left untouched
and no store operation is attempted — for the gated routes this is stated
for requests that passed the access gate, which runs before id parsing. -/
theorem id_route_rejects_unparseable_id (s : Store) (idStr url header tok : String)
    (resp : Option UpResponse) (payload : UpdatePayload) (bid : Option ℚ)
    (h0 : idStr ≠ "") (hd : idStr.data.all Char.isDigit = true)
    (hbig : int_max < str_digits_val idStr) :
    getLotHandler s idStr = (⟨400, RespBody.jsonError "Invalid lot id"⟩, []) ∧
    (require_paid_access url "UpdateLot" header resp = GateResult.allow tok →
      putLotHandler url header resp s idStr payload =
        (⟨400, RespBody.jsonError "Invalid lot id"⟩, s, [])) ∧
    (require_paid_access url "DeleteLot" header resp = GateResult.allow tok →
      deleteLotHandler url header resp s idStr =
        (⟨400, RespBody.jsonError "Invalid lot id"⟩, s, [])) ∧
    (require_paid_access url "PlaceBid" header resp = GateResult.allow tok →
      bidHandler url header resp s idStr bid =
        (⟨400, RespBody.jsonError "Invalid lot id"⟩, s, [])) := by
  have hp : parse_path_id idStr = none := parse_path_id_overflow h0 hd hbig
  refine ⟨?_, ?_, ?_, ?_⟩
  · unfold getLotHandler
    rw [hp]
  · intro hg
    unfold putLotHandler
    rw [hg]
    dsimp only
    rw [hp]
  · intro hg
    unfold deleteLotHandler
    rw [hg]
    dsimp only
    rw [hp]
  · intro hg
    unfold bidHandler
    rw [hg]
    dsimp only
    rw [hp]

/-- C10 witness: the digit string "9999999999" (beyond `INT_MAX`) is
answered 400 on the public GET route and on the gated bid route. -/
theorem id_route_rejects_unparseable_id_witness :
    getLotHandler store0 "9999999999" =
      (⟨400, RespBody.jsonError "Invalid lot id"⟩, []) ∧
    bidHandler "u" "Bearer t" gate_ok_resp store0 "9999999999" none =
      (⟨400, RespBody.jsonError "Invalid lot id"⟩, store0, []) := by
  have h := id_route_rejects_unparseable_id store0 "9999999999" "u" "Bearer t" "t"
    gate_ok_resp {} none (by decide) (by decide) (by decide)
  exact ⟨h.1, h.2.2.2 (by decide)⟩

lemma run_bids_cons_fst (s : Store) (lot_id : Int) (a : ℚ) (rest : List ℚ) :
    (run_bids s lot_id (a :: rest)).1 =
      (place_bid s lot_id a).1 :: (run_bids (place_bid s lot_id a).2 lot_id rest).1 := rfl

lemma sim_cons (b a : ℚ) (rest : List ℚ) :
    sim b (a :: rest) = if b < a then true :: sim a rest else false :: sim b rest := rfl

lemma sim_length (b : ℚ) (amts : List ℚ) : (sim b amts).length = amts.length := by
  induction amts generalizing b with
  | nil => rfl
  | cons a rest ih =>
    rw [sim_cons]
    by_cases hba : b < a
    · rw [if_pos hba]; simp [ih]
    · rw [if_neg hba]; simp [ih]

lemma place_bid_fst_low {s : Store} {lot_id : Int} {amount : ℚ} {l : Lot}
    (hl : get_lot_by_id s lot_id = some l) (h : amount ≤ baseline l) :
    (place_bid s lot_id amount).1 = BidResult.bid_too_low := by
  rw [place_bid_of_low hl h]

lemma place_bid_snd_low {s : Store} {lot_id : Int} {amount : ℚ} {l : Lot}
    (hl : get_lot_by_id s lot_id = some l) (h : amount ≤ baseline l) :
    (place_bid s lot_id amount).2 = s := by
  rw [place_bid_of_low hl h]

lemma place_bid_fst_accept {s : Store} {lot_id : Int} {amount : ℚ} {l : Lot}
    (hl : get_lot_by_id s lot_id = some l) (h : baseline l < amount)
    (hlive : s.now < l.auction_end_date) :
    (place_bid s lot_id amount).1 =
      BidResult.accepted { l with current_price := some amount } := by
  rw [place_bid_of_accept hl h hlive]

lemma place_bid_preserves_now (s : Store) (lot_id : Int) (amount : ℚ) :
    (place_bid s lot_id amount).2.now = s.now := by
  unfold place_bid
  cases get_lot_by_id s lot_id with
  | none => rfl
  | some l =>
    dsimp only
    by_cases h1 : amount ≤ baseline l
    · rw [if_pos h1]
    · rw [if_neg h1]
      by_cases h2 : l.auction_end_date ≤ s.now
      · rw [if_pos h2]
      · rw [if_neg h2]

/-- Characterization of a serialized batch against a live lot: the pattern
of acceptances is `sim` of the starting baseline, and every non-accepted
outcome is `bid_too_low`. -/
lemma run_bids_spec (amts : List ℚ) (s : Store) (lot_id : Int) (l : Lot)
    (hl : get_lot_by_id s lot_id = some l) (hlive : s.now < l.auction_end_date) :
    (run_bids s lot_id amts).1.map is_accepted = sim (baseline l) amts ∧
    (∀ r ∈ (run_bids s lot_id amts).1, is_accepted r = false → r = BidResult.bid_too_low) := by
  induction amts generalizing s l with
  | nil =>
    constructor
    · rfl
    · intro r hr
      simp [run_bids] at hr
  | cons a rest ih =>
    by_cases hba : baseline l < a
    · have hfst := place_bid_fst_accept hl hba hlive
      have hget2 := get_after_accept hl hba hlive
      have hlive2 : (place_bid s lot_id a).2.now <
          ({ l with current_price := some a } : Lot).auction_end_date := by
        rw [place_bid_preserves_now]
        exact hlive
      obtain ⟨ih1, ih2⟩ := ih (place_bid s lot_id a).2
        { l with current_price := some a } hget2 hlive2
      have hbase2 : baseline { l with current_price := some a } = a := rfl
      rw [hbase2] at ih1
      constructor
      · rw [run_bids_cons_fst, hfst, List.map_cons, sim_cons, if_pos hba]
        rw [ih1]
        rfl
      · intro r hr hfalse
        rw [run_bids_cons_fst, hfst] at hr
        rcases List.mem_cons.mp hr with hhead | htail
        · subst hhead
          simp [is_accepted] at hfalse
        · exact ih2 r htail hfalse
    · have hfst := place_bid_fst_low hl (not_lt.mp hba)
      have hsnd := place_bid_snd_low hl (not_lt.mp hba)
      constructor
      · rw [run_bids_cons_fst, hfst, hsnd, List.map_cons, sim_cons, if_neg hba]
        rw [(ih s l hl hlive).1]
        rfl
      · intro r hr hfalse
        rw [run_bids_cons_fst, hfst, hsnd] at hr
        rcases List.mem_cons.mp hr with hhead | htail
        · exact hhead
        · exact (ih s l hl hlive).2 r htail hfalse

/-- Index-wise characterization of `sim`: position `i` is accepted exactly
when it beats the starting baseline and every previously accepted amount. -/
lemma sim_getD (amts : List ℚ) : ∀ (b : ℚ) (i : Nat), i < amts.length →
    ((sim b amts).getD i false = true ↔
      (b < amts.getD i 0 ∧
       ∀ j, j < i → (sim b amts).getD j false = true →
         amts.getD j 0 < amts.getD i 0)) := by
  induction amts with
  | nil => intro b i hi; simp at hi
  | cons a rest ih =>
    intro b i hi
    rw [sim_cons]
    by_cases hba : b < a
    · rw [if_pos hba]
      cases i with
      | zero =>
        constructor
        · intro _
          refine ⟨by rw [List.getD_cons_zero]; exact hba, ?_⟩
          intro j hj
          exact absurd hj (Nat.not_lt_zero j)
        · intro _
          rw [List.getD_cons_zero]
      | succ k =>
        have hk : k < rest.length := by simpa using hi
        simp only [List.getD_cons_succ]
        rw [ih a k hk]
        constructor
        · rintro ⟨haR, hP⟩
          refine ⟨lt_trans hba haR, ?_⟩
          intro j hj hacc
          cases j with
          | zero =>
            rw [List.getD_cons_zero]
            exact haR
          | succ m =>
            rw [List.getD_cons_succ]
            rw [List.getD_cons_succ] at hacc
            exact hP m (by omega) hacc
        · rintro ⟨hbR, hQ⟩
          refine ⟨?_, ?_⟩
          · have h0 := hQ 0 (by omega) (by rw [List.getD_cons_zero])
            rw [List.getD_cons_zero] at h0
            exact h0
          · intro m hm hacc
            have hs := hQ (m + 1) (by omega) (by rw [List.getD_cons_succ]; exact hacc)
            rw [List.getD_cons_succ] at hs
            exact hs
    · rw [if_neg hba]
      cases i with
      | zero =>
        constructor
        · intro h
          rw [List.getD_cons_zero] at h
          exact Bool.noConfusion h
        · rintro ⟨hb0, -⟩
          rw [List.getD_cons_zero] at hb0
          exact absurd hb0 hba
      | succ k =>
        have hk : k < rest.length := by simpa using hi
        simp only [List.getD_cons_succ]
        rw [ih b k hk]
        constructor
        · rintro ⟨hbR, hP⟩
          refine ⟨hbR, ?_⟩
          intro j hj hacc
          cases j with
          | zero =>
            rw [List.getD_cons_zero] at hacc
            exact Bool.noConfusion hacc
          | succ m =>
            rw [List.getD_cons_succ] at hacc ⊢
            exact hP m (by omega) hacc
        · rintro ⟨hbR, hQ⟩
          refine ⟨hbR, ?_⟩
          intro m hm hacc
          have hs := hQ (m + 1) (by omega) (by rw [List.getD_cons_succ]; exact hacc)
          rw [List.getD_cons_succ] at hs
          exact hs

lemma getD_map_is_accepted (rs : List BidResult) (i : Nat) :
    is_accepted (rs.getD i BidResult.lot_not_found) = (rs.map is_accepted).getD i false := by
  induction rs generalizing i with
  | nil => cases i <;> rfl
  | cons r t ih =>
    cases i with
    | zero => rfl
    | succ k => exact ih k

lemma getD_mem {α : Type} (l : List α) (i : Nat) (d : α) (h : i < l.length) :
    l.getD i d ∈ l := by
  induction l generalizing i with
  | nil => simp at h
  | cons a t ih =>
    cases i with
    | zero => exact List.mem_cons_self _ _
    | succ k => exact List.mem_cons_of_mem _ (ih k (by simpa using h))

/-- C9: in any serialization order of N concurrent bids on one live lot,
each individually valid against the lot's pre-test baseline, a bid is
accepted exactly when it is strictly greater than every previously accepted
amount in that order, and every other bid is rejected with `BidTooLow`.
(The serialization itself is the row lock's doing; the order is universally
quantified here as the bid list.) -/
theorem concurrent_bids_serialization (s : Store) (lot_id : Int) (l : Lot)
    (amts : List ℚ) (hl : get_lot_by_id s lot_id = some l)
    (hlive : s.now < l.auction_end_date)
    (hvalid : ∀ a ∈ amts, baseline l < a) :
    ∀ i, i < amts.length →
      ((is_accepted ((run_bids s lot_id amts).1.getD i BidResult.lot_not_found) = true ↔
        ∀ j, j < i →
          is_accepted ((run_bids s lot_id amts).1.getD j BidResult.lot_not_found) = true →
          amts.getD j 0 < amts.getD i 0) ∧
       (is_accepted ((run_bids s lot_id amts).1.getD i BidResult.lot_not_found) = false →
        (run_bids s lot_id amts).1.getD i BidResult.lot_not_found = BidResult.bid_too_low)) := by
  intro i hi
  obtain ⟨hmap, hrej⟩ := run_bids_spec amts s lot_id l hl hlive
  have hlen : (run_bids s lot_id amts).1.length = amts.length := by
    have hc := congrArg List.length hmap
    simpa [sim_length] using hc
  have htrans : ∀ k,
      is_accepted ((run_bids s lot_id amts).1.getD k BidResult.lot_not_found) =
        (sim (baseline l) amts).getD k false := by
    intro k
    rw [getD_map_is_accepted, hmap]
  constructor
  · rw [htrans i]
    have hchar := sim_getD amts (baseline l) i hi
    have hbi : baseline l < amts.getD i 0 := hvalid _ (getD_mem amts i 0 hi)
    constructor
    · intro hacc
      intro j hj hjacc
      exact (hchar.mp hacc).2 j hj (by rw [← htrans j]; exact hjacc)
    · intro hprev
      apply hchar.mpr
      refine ⟨hbi, ?_⟩
      intro j hj hjacc
      exact hprev j hj (by rw [htrans j]; exact hjacc)
  · intro hfalse
    exact hrej _ (getD_mem _ i _ (by rw [hlen]; exact hi)) hfalse

/-- C9 witness: with baseline 100 and the serialization order
150, 150, 140, 200, the second 150 is rejected `BidTooLow`. -/
theorem concurrent_bids_serialization_witness :
    (run_bids store1 1 [150, 150, 140, 200]).1.getD 1 BidResult.lot_not_found =
      BidResult.bid_too_low := by
  have h := concurrent_bids_serialization store1 1 lot1 [150, 150, 140, 200]
    (by decide) (by decide) (by decide) 1 (by decide)
  exact h.2 (by decide)
